import Mathlib

/-!
# MoltMarket — shallow embedding and verification

Shallow embedding of the MoltMarket gateway's core state and operations:
the settlement ledger (`src/services/ledger.js`), the payment gate
middleware (`src/middleware/paymentGate.js`), the simulated yield account
(`src/services/treasury.js`) and the bounty board (`src/config.js`).

Conventions of the embedding:
* JavaScript `BigInt` amounts are nonnegative in every code path the
  claims quantify over, so they are modelled as `Nat` (BigInt division on
  nonnegative operands is floor division, as is `Nat` division).
* The module-level mutable arrays/scalars become explicit state passed in
  and returned by each operation.
* Wall-clock timestamps (`new Date().toISOString()`) are threaded in as an
  explicit `now : String` argument where a claim depends on the field, and
  omitted where no claim mentions them.
* A JavaScript field that is sometimes absent (`undefined`) is an
  `Option`; JS truthiness of an optional string (`x && ...`, `x || d`) is
  `jsTruthy` / `jsOr` below.
* External I/O (the STX transfer collaborator, the Hiro transaction
  lookup) is a function-valued oracle parameter.
-/

namespace MoltMarket

/-- JS truthiness of an optional string value: `undefined` and `""` are falsy. -/
def jsTruthy : Option String → Bool
  | some s => s ≠ ""
  | none => false

/-- JS `x || d` on an optional string: the default when `x` is falsy. -/
def jsOr (x : Option String) (d : String) : String :=
  match x with
  | some s => if s = "" then d else s
  | none => d

/-! ## Settlement ledger (`src/services/ledger.js`) -/

/-- One element of a ledger entry's `distributions` array, as pushed by
`recordDistribution`.  The `timestamp` field is omitted (no claim depends
on it). -/
structure Distribution where
  txid : String
  toAddress : String
  toName : String
  amount : Nat
deriving Repr, DecidableEq

/-- A ledger entry.  `recordIncomingPayment` creates entries with
`type = "incoming"` and all incoming fields set; `recordNegotiation`
creates entries with `type = "negotiation"` and, in particular, NO
`amount` field — hence `amount : Option Nat`. -/
structure LedgerEntry where
  id : Nat
  type : String
  txid : Option String
  from_ : Option String
  amount : Option Nat
  skillId : Option String
  bountyId : Option String
  oldReward : Option Nat
  newReward : Option Nat
  updatedBy : Option String
  distributions : List Distribution
deriving Repr, DecidableEq

/-- `recordIncomingPayment({txid, from, amount, skillId})`: appends an
entry with `id = entries.length + 1` and an empty `distributions` array,
returning the new state and the entry. -/
def recordIncomingPayment (entries : List LedgerEntry) (txid from_ : String)
    (amount : Nat) (skillId : String) : List LedgerEntry × LedgerEntry :=
  let entry : LedgerEntry :=
    { id := entries.length + 1
      type := "incoming"
      txid := some txid
      from_ := some from_
      amount := some amount
      skillId := some skillId
      bountyId := none
      oldReward := none
      newReward := none
      updatedBy := none
      distributions := [] }
  (entries ++ [entry], entry)

/-- `recordNegotiation({bountyId, oldReward, newReward, updatedBy})`:
appends an entry with `id = entries.length + 1`, `type = "negotiation"`
and no `amount` field. -/
def recordNegotiation (entries : List LedgerEntry) (bountyId : String)
    (oldReward newReward : Nat) (updatedBy : Option String) :
    List LedgerEntry × LedgerEntry :=
  let entry : LedgerEntry :=
    { id := entries.length + 1
      type := "negotiation"
      txid := none
      from_ := none
      amount := none
      skillId := none
      bountyId := some bountyId
      oldReward := some oldReward
      newReward := some newReward
      updatedBy := some (jsOr updatedBy "anonymous-agent")
      distributions := [] }
  (entries ++ [entry], entry)

/-- `recordDistribution({ledgerEntryId, ...})`: `entries.find` locates the
FIRST entry with the given id and pushes the distribution onto it; when no
entry matches, nothing at all changes (the `if (entry)` guard) and the
function still returns normally. -/
def recordDistribution (entries : List LedgerEntry) (ledgerEntryId : Nat)
    (d : Distribution) : List LedgerEntry :=
  match entries with
  | [] => []
  | e :: rest =>
    if e.id = ledgerEntryId then
      { e with distributions := e.distributions ++ [d] } :: rest
    else
      e :: recordDistribution rest ledgerEntryId d

/-- Sum of the incoming amounts, `none` when some entry lacks an `amount`
field: `BigInt(entry.amount)` throws a `TypeError` on `undefined`, which
the surrounding code does not catch. -/
def sumIncoming : List LedgerEntry → Option Nat
  | [] => some 0
  | e :: rest =>
    match e.amount, sumIncoming rest with
    | some a, some s => some (a + s)
    | _, _ => none

/-- Sum of all recorded distribution amounts over all entries. -/
def sumDistributed (entries : List LedgerEntry) : Nat :=
  (entries.map (fun e => ((e.distributions.map Distribution.amount).sum))).sum

/-- The record returned by `getLedgerSummary`.  The balance is an `Int`
because BigInt subtraction may go negative. -/
structure LedgerSummary where
  totalPayments : Nat
  totalIncomingMicroSTX : Nat
  totalDistributedMicroSTX : Nat
  platformBalanceMicroSTX : Int
  entries : List LedgerEntry
deriving Repr, DecidableEq

/-- `getLedgerSummary()`: folds over all entries with BigInt arithmetic.
Returns `none` exactly when the JS code throws, i.e. when some entry has
no `amount` field (`BigInt(undefined)` raises `TypeError`). -/
def getLedgerSummary (entries : List LedgerEntry) : Option LedgerSummary :=
  match sumIncoming entries with
  | none => none
  | some inc =>
    some
      { totalPayments := entries.length
        totalIncomingMicroSTX := inc
        totalDistributedMicroSTX := sumDistributed entries
        platformBalanceMicroSTX := (inc : Int) - (sumDistributed entries : Int)
        entries := entries }

/-- All distributions recorded against a given entry id. -/
def distributionsFor (entries : List LedgerEntry) (eid : Nat) : List Distribution :=
  (entries.filter (fun e => e.id == eid)).foldr (fun e acc => e.distributions ++ acc) []

/-- Sum of the amounts of a list of distributions. -/
def sumAmounts (ds : List Distribution) : Nat :=
  (ds.map Distribution.amount).sum

/-! ## Revenue distribution (`distributeRevenue` in `src/services/ledger.js`) -/

/-- One element of the `providers` argument of `distributeRevenue`
(a recipient share). -/
structure Provider where
  name : String
  address : String
  sharePercent : Nat
deriving Repr, DecidableEq

/-- One element of the `results` array returned by `distributeRevenue`:
`{name, txid, amount, explorerUrl}` on transfer success,
`{name, error, amount}` on transfer failure.  The `explorerUrl` is a pure
function of `txid` and is omitted. -/
structure DistResult where
  name : String
  txid : Option String
  amount : Nat
  error : Option String
deriving Repr, DecidableEq

/-- Outcome of the external `sendSTX` collaborator for a given recipient
address and amount: `.ok txid` when the broadcast succeeds, `.error msg`
when it throws. -/
abbrev SendOracle := String → Nat → Except String String

/-- `platformFee = (total * platformFeePercent) / 100n` (BigInt floor
division on nonnegative operands). -/
def platformFeeOf (feePercent total : Nat) : Nat :=
  total * feePercent / 100

/-- `distributable = total - platformFee`. -/
def distributableOf (feePercent total : Nat) : Nat :=
  total - platformFeeOf feePercent total

/-- `providerAmount = (distributable * provider.sharePercent) / 100n`. -/
def shareOf (distributable sharePercent : Nat) : Nat :=
  distributable * sharePercent / 100

/-- The provider loop of `distributeRevenue`: walks the providers in input
order, skips a provider with an empty `address` or a zero share, otherwise
attempts the transfer; on success it records a `Distribution` against
`ledgerEntryId` and pushes a success result, on failure it pushes an error
result without recording anything. -/
def distributeLoop (send : SendOracle) (entries : List LedgerEntry)
    (ledgerEntryId distributable : Nat) :
    List Provider → List LedgerEntry × List DistResult
  | [] => (entries, [])
  | p :: rest =>
    if p.address = "" then
      distributeLoop send entries ledgerEntryId distributable rest
    else
      let amt := shareOf distributable p.sharePercent
      if amt = 0 then
        distributeLoop send entries ledgerEntryId distributable rest
      else
        match send p.address amt with
        | .ok txid =>
          let entries1 := recordDistribution entries ledgerEntryId
            { txid := txid, toAddress := p.address, toName := p.name, amount := amt }
          let res := distributeLoop send entries1 ledgerEntryId distributable rest
          (res.1, { name := p.name, txid := some txid, amount := amt, error := none } :: res.2)
        | .error msg =>
          let res := distributeLoop send entries ledgerEntryId distributable rest
          (res.1, { name := p.name, txid := none, amount := amt, error := some msg } :: res.2)

/-- `distributeRevenue({ledgerEntryId, totalAmount, providers})`.
`feePercent` is `config.platformFeePercent`; `send` is the external
`sendSTX` collaborator.  Returns the new ledger state and the `results`
array. -/
def distributeRevenue (feePercent : Nat) (send : SendOracle)
    (entries : List LedgerEntry) (ledgerEntryId totalAmount : Nat)
    (providers : List Provider) : List LedgerEntry × List DistResult :=
  distributeLoop send entries ledgerEntryId (distributableOf feePercent totalAmount) providers

/-- Declarative description of the `results` array of `distributeRevenue`,
following the spec's algorithm statement: for each recipient in input
order, `share = floor(distributable * sharePercent / 100)`, skipping a
recipient with an empty address or a zero share. -/
def distributeResultsSpec (feePercent : Nat) (send : SendOracle)
    (totalAmount : Nat) (providers : List Provider) : List DistResult :=
  let d := distributableOf feePercent totalAmount
  providers.filterMap (fun p =>
    if p.address = "" then none
    else
      let amt := shareOf d p.sharePercent
      if amt = 0 then none
      else
        match send p.address amt with
        | .ok txid => some { name := p.name, txid := some txid, amount := amt, error := none }
        | .error msg => some { name := p.name, txid := none, amount := amt, error := some msg })

/-- The distributions `distributeRevenue` records against the ledger
entry: one per non-skipped recipient whose transfer succeeded. -/
def successfulShares (feePercent : Nat) (send : SendOracle)
    (totalAmount : Nat) (providers : List Provider) : List Distribution :=
  let d := distributableOf feePercent totalAmount
  providers.filterMap (fun p =>
    if p.address = "" then none
    else
      let amt := shareOf d p.sharePercent
      if amt = 0 then none
      else
        match send p.address amt with
        | .ok txid => some { txid := txid, toAddress := p.address, toName := p.name, amount := amt }
        | .error _ => none)

/-! ## Simulated yield account (`src/services/treasury.js`) -/

/-- The record returned by `spendSimulatedYield`. -/
structure SpendResult where
  success : Bool
  remaining : Int
  needed : Option Int
deriving Repr, DecidableEq

/-- `spendSimulatedYield(amount)`: decrements the balance iff
`simulatedYield >= amount`, else leaves it unchanged and reports
`needed = amount`.  Returns the result record and the new balance. -/
def spendSimulatedYield (simulatedYield amount : Int) : SpendResult × Int :=
  if amount ≤ simulatedYield then
    ({ success := true, remaining := simulatedYield - amount, needed := none },
      simulatedYield - amount)
  else
    ({ success := false, remaining := simulatedYield, needed := some amount },
      simulatedYield)

/-- `accrueSimulatedYield(amount)`: adds `amount`, or the pseudo-random
increment `rand` (1–3 in the code) when `amount` is omitted. -/
def accrueSimulatedYield (simulatedYield : Int) (amount : Option Int)
    (rand : Int) : Int :=
  simulatedYield + amount.getD rand

/-- The starting balance of the simulated yield account
(`let simulatedYield = 1420`). -/
def initialSimulatedYield : Int := 1420

/-! ## Bounty board (`src/config.js`) -/

/-- One element of a bounty's `submissions` array. -/
structure Submission where
  submittedBy : String
  result : String
  submittedAt : String
deriving Repr, DecidableEq

/-- One element of a bounty's `negotiationHistory` array, as pushed by
`updateBounty`. -/
structure NegotiationRecord where
  action : String
  oldReward : String
  newReward : String
  timestamp : String
deriving Repr, DecidableEq

/-- A bounty.  Rewards travel as strings through the HTTP API, so `reward`
is a `String`.  In JS the `negotiationHistory` field is absent until the
first update (`bounty.negotiationHistory || []`); the empty list models
the absent field. -/
structure Bounty where
  id : String
  title : String
  description : String
  reward : String
  postedBy : String
  status : String
  postedAt : String
  updatedAt : Option String
  submissions : List Submission
  negotiationHistory : List NegotiationRecord
deriving Repr, DecidableEq

/-- `postBounty({title, description, reward, postedBy})`: appends a bounty
with id `bounty-<length+1>` and status `open`. -/
def postBounty (bounties : List Bounty) (title description reward : String)
    (postedBy : Option String) (now : String) : List Bounty × Bounty :=
  let b : Bounty :=
    { id := "bounty-" ++ toString (bounties.length + 1)
      title := title
      description := description
      reward := reward
      postedBy := jsOr postedBy "anonymous-agent"
      status := "open"
      postedAt := now
      updatedAt := none
      submissions := []
      negotiationHistory := [] }
  (bounties ++ [b], b)

/-- Result of `submitBountyWork`: JS returns `null`, `{error}` or
`{bounty, submission}`. -/
inductive SubmitResult where
  | notFound : SubmitResult
  | err : String → SubmitResult
  | ok : Bounty → Submission → SubmitResult
deriving Repr, DecidableEq

/-- `submitBountyWork({bountyId, submittedBy, result})`: finds the first
bounty with the given id; returns `null` when absent, the error
`"Bounty is not open"` (without mutating) when its status is not `open`,
and otherwise pushes the submission and sets `status = "submitted"`.
Returns the result and the new bounty list. -/
def submitBountyWork (bounties : List Bounty) (bountyId submittedBy result now : String) :
    SubmitResult × List Bounty :=
  match bounties with
  | [] => (.notFound, [])
  | b :: rest =>
    if b.id = bountyId then
      if b.status ≠ "open" then
        (.err "Bounty is not open", b :: rest)
      else
        let s : Submission := { submittedBy := submittedBy, result := result, submittedAt := now }
        let b1 := { b with submissions := b.submissions ++ [s], status := "submitted" }
        (.ok b1 s, b1 :: rest)
    else
      let res := submitBountyWork rest bountyId submittedBy result now
      (res.1, b :: res.2)

/-- The `updates` argument of `updateBounty`; each field may be absent. -/
structure BountyUpdates where
  reward : Option String
  description : Option String
  postedBy : Option String
deriving Repr, DecidableEq

/-- The mutation `updateBounty` performs on a found, open, authorized
bounty: apply truthy `reward`/`description` updates, bump `updatedAt`, and
push a `reward_updated` record onto `negotiationHistory`
(`newReward: updates.reward || oldReward`). -/
def applyBountyUpdate (b : Bounty) (u : BountyUpdates) (now : String) : Bounty :=
  let oldReward := b.reward
  let reward1 := if jsTruthy u.reward then u.reward.getD oldReward else oldReward
  let description1 := if jsTruthy u.description then u.description.getD b.description else b.description
  { b with
    reward := reward1
    description := description1
    updatedAt := some now
    negotiationHistory := b.negotiationHistory ++
      [{ action := "reward_updated", oldReward := oldReward,
         newReward := jsOr u.reward oldReward, timestamp := now }] }

/-- Result of `updateBounty`: JS returns `null`, `{error}` or the updated
bounty. -/
inductive UpdateResult where
  | notFound : UpdateResult
  | err : String → UpdateResult
  | ok : Bounty → UpdateResult
deriving Repr, DecidableEq

/-- `updateBounty(bountyId, updates)`: finds the first bounty with the
given id; returns `null` when absent; the error `"Bounty is not open"`
when its status is not `open`; the authorization error when
`updates.postedBy` is truthy and differs from the bounty's poster (note
the JS truthiness guard: an empty-string `postedBy` skips the check);
otherwise mutates per `applyBountyUpdate`.  Returns the result and the new
bounty list. -/
def updateBounty (bounties : List Bounty) (bountyId : String)
    (u : BountyUpdates) (now : String) : UpdateResult × List Bounty :=
  match bounties with
  | [] => (.notFound, [])
  | b :: rest =>
    if b.id = bountyId then
      if b.status ≠ "open" then
        (.err "Bounty is not open", b :: rest)
      else if jsTruthy u.postedBy ∧ u.postedBy ≠ some b.postedBy then
        (.err "Only the bounty poster can update the reward", b :: rest)
      else
        let b1 := applyBountyUpdate b u now
        (.ok b1, b1 :: rest)
    else
      let res := updateBounty rest bountyId u now
      (res.1, b :: res.2)

/-! ## Payment gate middleware (`src/middleware/paymentGate.js`) -/

/-- The `req.x402` record the gate attaches before calling `next()`.  The
`explorerUrl` field is a pure function of the txid and network and is
omitted. -/
structure X402 where
  txid : String
  amount : Nat
  asset : String
  payer : String
  yieldPowered : Bool
deriving Repr, DecidableEq

/-- The transaction record returned by the Hiro API lookup; only
`sender_address` is consulted for the payer (`txData.sender_address ||
"unknown"`). -/
structure TxData where
  tx_status : String
  sender_address : Option String
deriving Repr, DecidableEq

/-- Outcome of `fetch(verifyUrl)` in the direct-txid branch: the response
is ok (with parsed body), the response is not ok (tx not found yet), or
the fetch itself throws (network error). -/
inductive LookupResult where
  | ok : TxData → LookupResult
  | notOk : LookupResult
  | fetchError : String → LookupResult
deriving Repr, DecidableEq

/-- Outcome of the wrapped middleware for one request: `.proceed x` means
`req.x402 = x` was attached and `next()` called; `.fallthrough` means the
request fell through to the base `x402-stacks` middleware / multi-asset
402 handling (external to this embedding). -/
inductive GateOutcome where
  | proceed : X402 → GateOutcome
  | fallthrough : GateOutcome
deriving Repr, DecidableEq

/-- The direct-txid branch of the gate (`x-payment-txid` header present):
look the txid up; on a 2xx response attach
`payer = txData.sender_address || "unknown"`; on a non-ok response accept
anyway with `payer = "pending"`; on a thrown fetch error accept anyway
with `payer = "unverified"`.  Every branch calls `next()`. -/
def directTxidBranch (price : Nat) (asset : String)
    (lookup : String → LookupResult) (directTxid : String) : X402 :=
  match lookup directTxid with
  | .ok td =>
    { txid := directTxid, amount := price, asset := asset,
      payer := td.sender_address.getD "unknown", yieldPowered := false }
  | .notOk =>
    { txid := directTxid, amount := price, asset := asset,
      payer := "pending", yieldPowered := false }
  | .fetchError _ =>
    { txid := directTxid, amount := price, asset := asset,
      payer := "unverified", yieldPowered := false }

/-- The request handler returned by `paymentGate({price, asset, ...})`,
restricted to the two proof headers this embedding covers: the
`x-yield-payment` branch, then the `x-payment-txid` branch, else
fallthrough to the base middleware. -/
def paymentGate (price : Nat) (asset : String)
    (lookup : String → LookupResult)
    (yieldHeader directTxid : Option String) : GateOutcome :=
  match yieldHeader with
  | some y =>
    .proceed { txid := y, amount := price, asset := "sBTC-yield",
               payer := "yield-engine", yieldPowered := true }
  | none =>
    match directTxid with
    | some t => .proceed (directTxidBranch price asset lookup t)
    | none => .fallthrough

/-- Modelled from the spec: the normalized `Payment.verified` flag for a
`DirectReference` proof — true exactly when the external lookup succeeded.
The code under `src/` attaches no `verified` field to `req.x402`; this
definition follows §4.1 of the spec ("Lookup success → verified:true ...
Lookup failure → verified:false"). -/
def paymentVerified (lookup : String → LookupResult) (txid : String) : Bool :=
  match lookup txid with
  | .ok _ => true
  | _ => false

/-- Modelled from the spec: "a matching prior debit against the Yield
Account occurred" (§3, YieldToken).  The code keeps no record of debits —
`spendSimulatedYield` tracks only a scalar balance — so the spec's
matching-debit check is modelled as membership of the proof's opaque
reference in a list of debit references. -/
def matchingDebitOccurred (debits : List String) (opaqueReference : String) : Bool :=
  debits.contains opaqueReference

/-! ## Ledger operation sequences (for the id invariant) -/

/-- One call against the ledger state. -/
inductive LedgerOp where
  | incoming : String → String → Nat → String → LedgerOp
  | negotiation : String → Nat → Nat → Option String → LedgerOp
  | distribution : Nat → Distribution → LedgerOp
deriving Repr

/-- Apply one ledger call to the state. -/
def applyOp (entries : List LedgerEntry) : LedgerOp → List LedgerEntry
  | .incoming txid from_ amount skillId =>
    (recordIncomingPayment entries txid from_ amount skillId).1
  | .negotiation bountyId o n u => (recordNegotiation entries bountyId o n u).1
  | .distribution eid d => recordDistribution entries eid d

/-- The ledger state after a sequence of calls, starting from the empty
ledger (a fresh start: `loadLedger()` returns `[]` when no file exists). -/
def runOps (ops : List LedgerOp) : List LedgerEntry :=
  ops.foldl applyOp []

/-- The current maximum id of the ledger (`0` when empty). -/
def currentMaxId (entries : List LedgerEntry) : Nat :=
  (entries.map LedgerEntry.id).foldr max 0

/-- A transfer oracle that always succeeds, for concrete scenarios. -/
def sendAlwaysOk : SendOracle := fun addr _ => .ok ("txid-" ++ addr)

/-! ## Helper lemmas -/

lemma recordDistribution_no_match (entries : List LedgerEntry) (eid : Nat)
    (d : Distribution) (h : ∀ e ∈ entries, e.id ≠ eid) :
    recordDistribution entries eid d = entries := by
  induction entries with
  | nil => rfl
  | cons e rest ih =>
    have he : e.id ≠ eid := h e (List.mem_cons_self e rest)
    simp only [recordDistribution, if_neg he]
    exact congrArg (e :: ·) (ih fun x hx => h x (List.mem_cons_of_mem e hx))

lemma distributionsFor_cons (e : LedgerEntry) (rest : List LedgerEntry) (eid : Nat) :
    distributionsFor (e :: rest) eid =
      if e.id = eid then e.distributions ++ distributionsFor rest eid
      else distributionsFor rest eid := by
  by_cases h : e.id = eid
  · simp [distributionsFor, List.filter_cons, h]
  · simp [distributionsFor, List.filter_cons, h]

lemma distributionsFor_eq_nil (entries : List LedgerEntry) (eid : Nat)
    (h : (entries.filter (fun e => e.id == eid)).length = 0) :
    distributionsFor entries eid = [] := by
  unfold distributionsFor
  rw [List.length_eq_zero] at h
  rw [h]
  rfl

lemma recordDistribution_filter_length (entries : List LedgerEntry) (eid k : Nat)
    (d : Distribution) :
    ((recordDistribution entries eid d).filter (fun e => e.id == k)).length =
      (entries.filter (fun e => e.id == k)).length := by
  induction entries with
  | nil => rfl
  | cons e rest ih =>
    by_cases h : e.id = eid
    · simp only [recordDistribution, if_pos h]
      by_cases hk : e.id = k <;> simp [List.filter_cons, hk]
    · simp only [recordDistribution, if_neg h]
      by_cases hk : e.id = k <;> simp [List.filter_cons, hk, ih]

lemma recordDistribution_distributionsFor (entries : List LedgerEntry)
    (eid : Nat) (d : Distribution)
    (h : (entries.filter (fun e => e.id == eid)).length = 1) :
    distributionsFor (recordDistribution entries eid d) eid =
      distributionsFor entries eid ++ [d] := by
  induction entries with
  | nil => simp [List.filter] at h
  | cons e rest ih =>
    by_cases he : e.id = eid
    · have hrest : (rest.filter (fun e => e.id == eid)).length = 0 := by
        rw [List.filter_cons, if_pos (by simp [he] : (e.id == eid) = true)] at h
        simp only [List.length_cons] at h
        omega
      simp only [recordDistribution, if_pos he]
      rw [distributionsFor_cons, distributionsFor_cons]
      simp [he, distributionsFor_eq_nil rest eid hrest]
    · have h' : (rest.filter (fun e => e.id == eid)).length = 1 := by
        rwa [List.filter_cons, if_neg (by simp [he])] at h
      simp only [recordDistribution, if_neg he]
      rw [distributionsFor_cons, distributionsFor_cons, if_neg he, if_neg he]
      exact ih h'

lemma sumAmounts_cons (d : Distribution) (ds : List Distribution) :
    sumAmounts (d :: ds) = d.amount + sumAmounts ds := by
  simp [sumAmounts]

/-! ## Claim theorems -/

/-- C10: when `entryId` matches no existing ledger entry,
`recordDistribution` returns normally without signalling any error and
leaves every ledger entry unchanged — a silent no-op, with no
`Distribution` recorded anywhere. -/
theorem recordDistribution_missing_entry_noop (entries : List LedgerEntry)
    (eid : Nat) (d : Distribution) (h : ∀ e ∈ entries, e.id ≠ eid) :
    recordDistribution entries eid d = entries :=
  recordDistribution_no_match entries eid d h

theorem recordDistribution_missing_entry_noop_witness :
    (∀ e ∈ (recordIncomingPayment [] "tx1" "ST1" 5000 "audit").1, e.id ≠ 2) ∧
    recordDistribution (recordIncomingPayment [] "tx1" "ST1" 5000 "audit").1 2
        { txid := "t", toAddress := "a", toName := "n", amount := 7 } =
      (recordIncomingPayment [] "tx1" "ST1" 5000 "audit").1 :=
  ⟨by decide, recordDistribution_missing_entry_noop _ 2 _ (by decide)⟩

/-- C3 (code-bug evidence): on a ledger holding only incoming entries the
summary folds to the stated totals, but as soon as one `recordNegotiation`
entry is present `getLedgerSummary` fails (`BigInt(entry.amount)` on an
entry with no `amount` field throws a `TypeError`), contradicting the
claim that `summary()` never fails on states reachable via
`recordNegotiation`. -/
theorem getLedgerSummary_fails_after_negotiation :
    getLedgerSummary (recordIncomingPayment [] "tx1" "ST1" 5000 "wallet-auditor").1 =
      some { totalPayments := 1, totalIncomingMicroSTX := 5000,
             totalDistributedMicroSTX := 0, platformBalanceMicroSTX := 5000,
             entries := (recordIncomingPayment [] "tx1" "ST1" 5000 "wallet-auditor").1 } ∧
    getLedgerSummary
        (recordNegotiation (recordIncomingPayment [] "tx1" "ST1" 5000 "wallet-auditor").1
          "bounty-1" 5000 8000 (some "agent-a")).1 = none :=
  ⟨by decide, by decide⟩

/-- C9: `spend(amount)` succeeds and decrements iff `balance ≥ amount`,
otherwise leaves the balance unchanged with `remaining` the current
balance and `needed = amount`; the balance never becomes negative; and
from the initial balance 1420, `spend(800)` yields
`{success:true, remaining:620}` and a second `spend(800)` yields
`{success:false, remaining:620, needed:800}`. -/
theorem spendSimulatedYield_correct (balance amount : Int) (h : 0 ≤ amount) :
    ((spendSimulatedYield balance amount).1.success = true ↔ amount ≤ balance) ∧
    (amount ≤ balance →
      spendSimulatedYield balance amount =
        ({ success := true, remaining := balance - amount, needed := none },
          balance - amount)) ∧
    (¬ amount ≤ balance →
      spendSimulatedYield balance amount =
        ({ success := false, remaining := balance, needed := some amount },
          balance)) ∧
    (0 ≤ balance → 0 ≤ (spendSimulatedYield balance amount).2) ∧
    spendSimulatedYield initialSimulatedYield 800 =
      ({ success := true, remaining := 620, needed := none }, 620) ∧
    spendSimulatedYield (spendSimulatedYield initialSimulatedYield 800).2 800 =
      ({ success := false, remaining := 620, needed := some 800 }, 620) := by
  refine ⟨?_, ?_, ?_, ?_, by decide, by decide⟩
  · by_cases hb : amount ≤ balance <;> simp [spendSimulatedYield, hb]
  · intro hb; simp [spendSimulatedYield, hb]
  · intro hb; simp [spendSimulatedYield, hb]
  · intro h0
    by_cases hb : amount ≤ balance <;> simp [spendSimulatedYield, hb] <;> omega

theorem spendSimulatedYield_correct_witness :
    (0 : Int) ≤ 800 ∧
    (((spendSimulatedYield 1420 800).1.success = true) ↔ (800 : Int) ≤ 1420) :=
  ⟨by decide, (spendSimulatedYield_correct 1420 800 (by decide)).1⟩

/-- C4 (counterexample): a request bearing an `x-yield-payment` header is
accepted by the gate even though no matching debit against the yield
account ever occurred — the claimed "accepted only if a matching prior
debit occurred" direction is false: the gate never consults any debit
record. -/
theorem yieldToken_accepted_without_matching_debit :
    paymentGate 5000 "STX" (fun _ => .notOk) (some "unmatched-ref") none =
      .proceed { txid := "unmatched-ref", amount := 5000, asset := "sBTC-yield",
                 payer := "yield-engine", yieldPowered := true } ∧
    matchingDebitOccurred [] "unmatched-ref" = false :=
  ⟨rfl, rfl⟩

/-- C4 (amended): a YieldToken proof is accepted exactly when the
`x-yield-payment` header is present — unconditionally, with no check
against prior debits and no re-debit (the gate takes no yield-account
state at all) — and the resulting payment is treated as paid by the yield
engine (`yieldPowered:true`). -/
theorem yieldToken_accepted_iff_header_present (price : Nat) (asset y : String)
    (lookup : String → LookupResult) (directTxid : Option String) :
    paymentGate price asset lookup (some y) directTxid =
      .proceed { txid := y, amount := price, asset := "sBTC-yield",
                 payer := "yield-engine", yieldPowered := true } :=
  rfl

/-- C5: a DirectReference proof (the `x-payment-txid` header) is never
rejected: every lookup outcome attaches an `req.x402` record and calls
`next()`; on lookup success the payer is the looked-up record's
`sender_address` and the payment counts as verified, while on a not-found
response or a network error the payer is the sentinel `"pending"` resp.
`"unverified"` and the payment is unverified but still accepted. -/
theorem directReference_always_accepted (price : Nat) (asset t : String)
    (lookup : String → LookupResult) :
    paymentGate price asset lookup none (some t) =
      .proceed (directTxidBranch price asset lookup t) ∧
    (∀ td s, lookup t = .ok td → td.sender_address = some s →
      (directTxidBranch price asset lookup t).payer = s ∧
        paymentVerified lookup t = true) ∧
    (lookup t = .notOk →
      (directTxidBranch price asset lookup t).payer = "pending" ∧
        paymentVerified lookup t = false) ∧
    (∀ m, lookup t = .fetchError m →
      (directTxidBranch price asset lookup t).payer = "unverified" ∧
        paymentVerified lookup t = false) := by
  refine ⟨rfl, ?_, ?_, ?_⟩
  · intro td s hl hs
    simp [directTxidBranch, paymentVerified, hl, hs]
  · intro hl
    simp [directTxidBranch, paymentVerified, hl]
  · intro m hl
    simp [directTxidBranch, paymentVerified, hl]

theorem directReference_always_accepted_witness :
    (directTxidBranch 5000 "STX"
        (fun _ => .ok { tx_status := "success", sender_address := some "ST1SENDER" })
        "txid-1").payer = "ST1SENDER" ∧
    paymentVerified
        (fun _ => .ok { tx_status := "success", sender_address := some "ST1SENDER" })
        "txid-1" = true :=
  (directReference_always_accepted 5000 "STX" "txid-1"
      (fun _ => .ok { tx_status := "success", sender_address := some "ST1SENDER" })).2.1
    { tx_status := "success", sender_address := some "ST1SENDER" } "ST1SENDER" rfl rfl

/-- C8: submitting work succeeds only while the bounty's status is `open`
(the submission is appended and the status set to `submitted`); on a
non-open bounty `submitBountyWork` returns the explicit `"Bounty is not
open"` error and changes nothing, so the `open → submitted` transition
happens at most once and `submitted` is terminal for submissions (a
second submission against the same bounty is rejected). -/
theorem submitWork_open_transition (bounties : List Bounty)
    (bId sby res now sby2 res2 now2 : String) (b : Bounty)
    (hfind : bounties.find? (fun x => x.id == bId) = some b) :
    (b.status = "open" →
      (submitBountyWork bounties bId sby res now).1 =
        .ok { b with submissions := b.submissions ++ [⟨sby, res, now⟩],
                     status := "submitted" } ⟨sby, res, now⟩ ∧
      submitBountyWork (submitBountyWork bounties bId sby res now).2 bId sby2 res2 now2 =
        (.err "Bounty is not open", (submitBountyWork bounties bId sby res now).2)) ∧
    (b.status ≠ "open" →
      submitBountyWork bounties bId sby res now = (.err "Bounty is not open", bounties)) := by
  induction bounties with
  | nil => simp at hfind
  | cons x rest ih =>
    by_cases hx : x.id = bId
    · have hxb : x = b := by
        rw [List.find?_cons_of_pos rest (by simp [hx])] at hfind
        exact Option.some.inj hfind
      subst hxb
      constructor
      · intro hopen
        constructor
        · simp [submitBountyWork, hx, hopen]
        · simp [submitBountyWork, hx, hopen,
            (by decide : ("submitted" : String) ≠ "open")]
      · intro hnot
        simp [submitBountyWork, hx, hnot]
    · have hfind' : rest.find? (fun y => y.id == bId) = some b := by
        rwa [List.find?_cons_of_neg rest (by simp [hx])] at hfind
      have ih' := ih hfind'
      constructor
      · intro hopen
        constructor
        · simp only [submitBountyWork, if_neg hx]
          exact (ih'.1 hopen).1
        · simp only [submitBountyWork, if_neg hx]
          rw [(ih'.1 hopen).2]
      · intro hnot
        simp only [submitBountyWork, if_neg hx]
        rw [(ih'.2 hnot)]

theorem submitWork_open_transition_witness :
    ((postBounty [] "Audit 3 whale wallets" "Compare risk scores" "50000"
        (some "agent-a") "t0").2.status = "open") ∧
    (submitBountyWork (postBounty [] "Audit 3 whale wallets" "Compare risk scores" "50000"
        (some "agent-a") "t0").1 "bounty-1" "agent-b" "done" "t1").1 =
      .ok { (postBounty [] "Audit 3 whale wallets" "Compare risk scores" "50000"
              (some "agent-a") "t0").2 with
            submissions := (postBounty [] "Audit 3 whale wallets" "Compare risk scores" "50000"
              (some "agent-a") "t0").2.submissions ++ [⟨"agent-b", "done", "t1"⟩],
            status := "submitted" } ⟨"agent-b", "done", "t1"⟩ :=
  ⟨by decide,
    ((submitWork_open_transition
        (postBounty [] "Audit 3 whale wallets" "Compare risk scores" "50000"
          (some "agent-a") "t0").1
        "bounty-1" "agent-b" "done" "t1" "x" "y" "t2" _ (by decide)).1 (by decide)).1⟩

/-- C7 (counterexample): an update supplying `postedBy` as the empty
string — supplied, and different from the original poster `"agent-a"` —
is NOT rejected: the JS truthiness guard `updates.postedBy && ...` skips
the authorization check for a falsy string, and the bounty's reward is
mutated from `"5000"` to `"8000"`. -/
theorem updateBounty_empty_postedBy_bypasses_auth :
    some "" ≠ some ((postBounty [] "Audit wallets" "Desc" "5000"
        (some "agent-a") "t0").2.postedBy) ∧
    (updateBounty (postBounty [] "Audit wallets" "Desc" "5000" (some "agent-a") "t0").1
        "bounty-1" { reward := some "8000", description := none, postedBy := some "" }
        "t1").1 =
      .ok { id := "bounty-1", title := "Audit wallets", description := "Desc",
            reward := "8000", postedBy := "agent-a", status := "open", postedAt := "t0",
            updatedAt := some "t1", submissions := [],
            negotiationHistory := [{ action := "reward_updated", oldReward := "5000",
                                     newReward := "8000", timestamp := "t1" }] } :=
  ⟨by decide, by decide⟩

/-- C7 (amended): for every bounty that is `open`, an update supplying a
NON-EMPTY `postedBy` differing from the bounty's original poster is
rejected with the authorization error and the whole bounty board — hence
the bounty's `reward`, `description`, `negotiationHistory` and
`updatedAt` — is left exactly unchanged.  (An empty-string `postedBy`
bypasses the truthiness guard, and a non-open bounty yields the
`"Bounty is not open"` error instead, likewise without mutation.) -/
theorem updateBounty_nonposter_rejected (bounties : List Bounty)
    (bId now s : String) (u : BountyUpdates) (b : Bounty)
    (hfind : bounties.find? (fun x => x.id == bId) = some b)
    (hopen : b.status = "open")
    (hp : u.postedBy = some s) (hs : s ≠ "") (hd : s ≠ b.postedBy) :
    updateBounty bounties bId u now =
      (.err "Only the bounty poster can update the reward", bounties) := by
  induction bounties with
  | nil => simp at hfind
  | cons x rest ih =>
    by_cases hx : x.id = bId
    · have hxb : x = b := by
        rw [List.find?_cons_of_pos rest (by simp [hx])] at hfind
        exact Option.some.inj hfind
      have htr : jsTruthy u.postedBy = true := by simp [jsTruthy, hp, hs]
      have hopen' : x.status = "open" := by rw [hxb]; exact hopen
      have hne : u.postedBy ≠ some x.postedBy := by
        rw [hp, hxb]
        intro hc
        exact hd (Option.some.inj hc)
      simp [updateBounty, hx, hopen', htr, hne]
    · have hfind' : rest.find? (fun y => y.id == bId) = some b := by
        rwa [List.find?_cons_of_neg rest (by simp [hx])] at hfind
      simp only [updateBounty, if_neg hx]
      rw [ih hfind']

theorem updateBounty_nonposter_rejected_witness :
    updateBounty [{ id := "bounty-1", title := "Audit wallets", description := "Desc",
                    reward := "5000", postedBy := "agent-a", status := "open",
                    postedAt := "t0", updatedAt := none, submissions := [],
                    negotiationHistory := [] }] "bounty-1"
        { reward := some "8000", description := none, postedBy := some "agent-b" } "t1" =
      (.err "Only the bounty poster can update the reward",
        [{ id := "bounty-1", title := "Audit wallets", description := "Desc",
           reward := "5000", postedBy := "agent-a", status := "open",
           postedAt := "t0", updatedAt := none, submissions := [],
           negotiationHistory := [] }]) :=
  updateBounty_nonposter_rejected _ "bounty-1" "t1" "agent-b"
    { reward := some "8000", description := none, postedBy := some "agent-b" }
    { id := "bounty-1", title := "Audit wallets", description := "Desc",
      reward := "5000", postedBy := "agent-a", status := "open",
      postedAt := "t0", updatedAt := none, submissions := [],
      negotiationHistory := [] }
    (by decide) rfl rfl (by decide) (by decide)

lemma recordDistribution_map_id (entries : List LedgerEntry) (eid : Nat)
    (d : Distribution) :
    (recordDistribution entries eid d).map LedgerEntry.id =
      entries.map LedgerEntry.id := by
  induction entries with
  | nil => rfl
  | cons e rest ih =>
    by_cases h : e.id = eid
    · simp [recordDistribution, h]
    · simp [recordDistribution, h, ih]

lemma applyOp_ids (entries : List LedgerEntry) (op : LedgerOp)
    (h : entries.map LedgerEntry.id = List.range' 1 entries.length) :
    (applyOp entries op).map LedgerEntry.id =
      List.range' 1 (applyOp entries op).length := by
  cases op with
  | incoming txid from_ amount skillId =>
    simp only [applyOp, recordIncomingPayment, List.map_append, List.length_append, h]
    simp [List.range'_concat, Nat.add_comm]
  | negotiation bountyId o n u =>
    simp only [applyOp, recordNegotiation, List.map_append, List.length_append, h]
    simp [List.range'_concat, Nat.add_comm]
  | distribution eid d =>
    have hm := recordDistribution_map_id entries eid d
    have hl : (recordDistribution entries eid d).length = entries.length := by
      simpa using congrArg List.length hm
    simp only [applyOp, hm, hl]
    exact h

lemma runOps_ids_aux (ops : List LedgerOp) :
    ∀ entries, entries.map LedgerEntry.id = List.range' 1 entries.length →
      (ops.foldl applyOp entries).map LedgerEntry.id =
        List.range' 1 (ops.foldl applyOp entries).length := by
  induction ops with
  | nil => intro entries h; simpa using h
  | cons op rest ih =>
    intro entries h
    simp only [List.foldl_cons]
    exact ih _ (applyOp_ids entries op h)

lemma runOps_ids (ops : List LedgerOp) :
    (runOps ops).map LedgerEntry.id = List.range' 1 (runOps ops).length :=
  runOps_ids_aux ops [] (by simp)

lemma foldr_max_range' (n : Nat) : (List.range' 1 n).foldr max 0 = n := by
  suffices h : ∀ s m, (List.range' s (m + 1)).foldr max 0 = s + m by
    cases n with
    | zero => rfl
    | succ m => exact (h 1 m).trans (by omega)
  intro s m
  induction m generalizing s with
  | zero => simp [List.range'_succ]
  | succ k ih =>
    rw [List.range'_succ]
    simp only [List.foldr_cons]
    rw [ih (s + 1)]
    rw [Nat.max_eq_right (by omega)]
    omega

lemma currentMaxId_runOps (ops : List LedgerOp) :
    currentMaxId (runOps ops) = (runOps ops).length := by
  unfold currentMaxId
  rw [runOps_ids ops, foldr_max_range']

/-- C6: on every ledger state reachable by a sequence of
`recordIncomingPayment`, `recordNegotiation` and `recordDistribution`
calls from a fresh ledger, the entry ids are strictly increasing in
creation order, pairwise distinct, and at least 1, and the id assigned to
the next entry (by `recordIncomingPayment` or `recordNegotiation` alike)
is `currentMax + 1`, so an id is never reused. -/
theorem ledger_ids_strictly_increasing (ops : List LedgerOp)
    (txid from_ skillId bountyId : String) (amount oldReward newReward : Nat)
    (updatedBy : Option String) :
    ((runOps ops).map LedgerEntry.id).Pairwise (· < ·) ∧
    ((runOps ops).map LedgerEntry.id).Nodup ∧
    (∀ i ∈ (runOps ops).map LedgerEntry.id, 1 ≤ i) ∧
    (recordIncomingPayment (runOps ops) txid from_ amount skillId).2.id =
      currentMaxId (runOps ops) + 1 ∧
    (recordNegotiation (runOps ops) bountyId oldReward newReward updatedBy).2.id =
      currentMaxId (runOps ops) + 1 := by
  have hids := runOps_ids ops
  refine ⟨?_, ?_, ?_, ?_, ?_⟩
  · rw [hids]; exact List.pairwise_lt_range' 1 _
  · rw [hids]; exact List.nodup_range' 1 _
  · rw [hids]
    intro i hi
    have := List.mem_range'_1.mp hi
    omega
  · simp [recordIncomingPayment, currentMaxId_runOps]
  · simp [recordNegotiation, currentMaxId_runOps]

theorem ledger_ids_strictly_increasing_witness :
    (recordIncomingPayment (runOps [.incoming "tx1" "ST1" 5000 "audit"])
        "tx2" "ST2" 3000 "stacks-intel").2.id =
      currentMaxId (runOps [.incoming "tx1" "ST1" 5000 "audit"]) + 1 :=
  (ledger_ids_strictly_increasing [.incoming "tx1" "ST1" 5000 "audit"]
      "tx2" "ST2" "stacks-intel" "bounty-1" 3000 0 0 none).2.2.2.1

lemma distributeLoop_results (send : SendOracle) (eid dist : Nat) :
    ∀ (provs : List Provider) (entries : List LedgerEntry),
      (distributeLoop send entries eid dist provs).2 =
        provs.filterMap (fun p =>
          if p.address = "" then none
          else if shareOf dist p.sharePercent = 0 then none
          else
            match send p.address (shareOf dist p.sharePercent) with
            | .ok txid => some { name := p.name, txid := some txid,
                                 amount := shareOf dist p.sharePercent, error := none }
            | .error msg => some { name := p.name, txid := none,
                                   amount := shareOf dist p.sharePercent, error := some msg }) := by
  intro provs
  induction provs with
  | nil => intro entries; rfl
  | cons p rest ih =>
    intro entries
    by_cases ha : p.address = ""
    · simp [distributeLoop, ha, ih]
    · by_cases hz : shareOf dist p.sharePercent = 0
      · simp [distributeLoop, ha, hz, ih]
      · cases hs : send p.address (shareOf dist p.sharePercent) with
        | ok txid => simp [distributeLoop, ha, hz, hs, ih]
        | error msg => simp [distributeLoop, ha, hz, hs, ih]

lemma distributeLoop_entries (send : SendOracle) (eid dist : Nat) :
    ∀ (provs : List Provider) (entries : List LedgerEntry),
      (entries.filter (fun e => e.id == eid)).length = 1 →
      distributionsFor (distributeLoop send entries eid dist provs).1 eid =
        distributionsFor entries eid ++
          provs.filterMap (fun p =>
            if p.address = "" then none
            else if shareOf dist p.sharePercent = 0 then none
            else
              match send p.address (shareOf dist p.sharePercent) with
              | .ok txid => some { txid := txid, toAddress := p.address,
                                   toName := p.name, amount := shareOf dist p.sharePercent }
              | .error _ => none) := by
  intro provs
  induction provs with
  | nil => intro entries _; simp [distributeLoop]
  | cons p rest ih =>
    intro entries h
    by_cases ha : p.address = ""
    · simp only [distributeLoop, if_pos ha, List.filterMap_cons, ha, ite_true]
      exact ih entries h
    · by_cases hz : shareOf dist p.sharePercent = 0
      · simp only [distributeLoop, if_neg ha, if_pos hz, List.filterMap_cons,
          ha, ite_false, hz, ite_true]
        exact ih entries h
      · cases hs : send p.address (shareOf dist p.sharePercent) with
        | ok txid =>
          have h1 : ((recordDistribution entries eid
              { txid := txid, toAddress := p.address, toName := p.name,
                amount := shareOf dist p.sharePercent }).filter
                (fun e => e.id == eid)).length = 1 := by
            rw [recordDistribution_filter_length]
            exact h
          simp only [distributeLoop, if_neg ha, if_neg hz, hs]
          rw [ih _ h1]
          rw [recordDistribution_distributionsFor entries eid _ h]
          simp [List.filterMap_cons, ha, hz, hs]
        | error msg =>
          simp only [distributeLoop, if_neg ha, if_neg hz, hs]
          rw [ih entries h]
          simp [List.filterMap_cons, ha, hz, hs]

/-- C1: `distributeRevenue` computes
`fee = floor(totalAmount * feePercent / 100)`,
`distributable = totalAmount - fee`, and for each recipient in input order
`share = floor(distributable * sharePercent / 100)`, recording no
`Distribution` for a recipient with an empty address or a zero share —
and on the Scenario A input (totalAmount 5000, fee 40%, recipients A and B
at 50% each) yields fee 2000, distributable 3000, recorded distributions
1500 and 1500 summing to 3000. -/
theorem distributeRevenue_correct (feePercent totalAmount eid : Nat)
    (send : SendOracle) (entries : List LedgerEntry) (providers : List Provider)
    (h : (entries.filter (fun e => e.id == eid)).length = 1) :
    ((distributeRevenue feePercent send entries eid totalAmount providers).2 =
        distributeResultsSpec feePercent send totalAmount providers ∧
      distributionsFor
          (distributeRevenue feePercent send entries eid totalAmount providers).1 eid =
        distributionsFor entries eid ++
          successfulShares feePercent send totalAmount providers) ∧
    (platformFeeOf 40 5000 = 2000 ∧ distributableOf 40 5000 = 3000 ∧
      shareOf 3000 50 = 1500 ∧
      (distributionsFor
          (distributeRevenue 40 sendAlwaysOk
            (recordIncomingPayment [] "tx1" "ST1" 5000 "audit").1 1 5000
            [{ name := "Provider A", address := "STA", sharePercent := 50 },
             { name := "Provider B", address := "STB", sharePercent := 50 }]).1 1).map
        Distribution.amount = [1500, 1500] ∧
      sumAmounts
        (distributionsFor
          (distributeRevenue 40 sendAlwaysOk
            (recordIncomingPayment [] "tx1" "ST1" 5000 "audit").1 1 5000
            [{ name := "Provider A", address := "STA", sharePercent := 50 },
             { name := "Provider B", address := "STB", sharePercent := 50 }]).1 1) = 3000) := by
  refine ⟨⟨?_, ?_⟩, by decide, by decide, by decide, by decide, by decide⟩
  · exact distributeLoop_results send eid (distributableOf feePercent totalAmount)
      providers entries
  · exact distributeLoop_entries send eid (distributableOf feePercent totalAmount)
      providers entries h

theorem distributeRevenue_correct_witness :
    ((recordIncomingPayment [] "tx1" "ST1" 5000 "audit").1.filter
        (fun e => e.id == 1)).length = 1 ∧
    (distributeRevenue 40 sendAlwaysOk
        (recordIncomingPayment [] "tx1" "ST1" 5000 "audit").1 1 5000
        [{ name := "Provider A", address := "STA", sharePercent := 50 },
         { name := "Provider B", address := "STB", sharePercent := 50 }]).2 =
      distributeResultsSpec 40 sendAlwaysOk 5000
        [{ name := "Provider A", address := "STA", sharePercent := 50 },
         { name := "Provider B", address := "STB", sharePercent := 50 }] :=
  ⟨by decide,
    ((distributeRevenue_correct 40 5000 1 sendAlwaysOk
        (recordIncomingPayment [] "tx1" "ST1" 5000 "audit").1
        [{ name := "Provider A", address := "STA", sharePercent := 50 },
         { name := "Provider B", address := "STB", sharePercent := 50 }]
        (by decide)).1).1⟩

lemma sumAmounts_shares_le (send : SendOracle) (dist : Nat) :
    ∀ provs : List Provider,
      sumAmounts (provs.filterMap (fun p =>
        if p.address = "" then none
        else if shareOf dist p.sharePercent = 0 then none
        else
          match send p.address (shareOf dist p.sharePercent) with
          | .ok txid => some { txid := txid, toAddress := p.address,
                               toName := p.name, amount := shareOf dist p.sharePercent }
          | .error _ => none)) ≤
        dist * (provs.map Provider.sharePercent).sum / 100 := by
  intro provs
  induction provs with
  | nil => simp [sumAmounts]
  | cons p rest ih =>
    have hmono : dist * (rest.map Provider.sharePercent).sum / 100 ≤
        dist * (p.sharePercent + (rest.map Provider.sharePercent).sum) / 100 :=
      Nat.div_le_div_right
        (Nat.mul_le_mul_left dist (Nat.le_add_left _ _))
    by_cases ha : p.address = ""
    · simp only [List.filterMap_cons, ha, ite_true, List.map_cons, List.sum_cons]
      exact ih.trans hmono
    · by_cases hz : shareOf dist p.sharePercent = 0
      · simp only [List.filterMap_cons, ha, ite_false, hz, ite_true,
          List.map_cons, List.sum_cons]
        exact ih.trans hmono
      · have h4 : ∀ a b : Nat,
            dist * a / 100 + dist * b / 100 ≤ dist * (a + b) / 100 := fun a b =>
          (Nat.add_div_le_add_div _ _ _).trans (le_of_eq (by rw [Nat.mul_add]))
        cases hs : send p.address (shareOf dist p.sharePercent) with
        | ok txid =>
          simp only [List.filterMap_cons, ha, ite_false, hz, hs,
            List.map_cons, List.sum_cons]
          rw [sumAmounts_cons]
          exact (Nat.add_le_add_left ih _).trans (h4 p.sharePercent _)
        | error msg =>
          simp only [List.filterMap_cons, ha, ite_false, hz, hs,
            List.map_cons, List.sum_cons]
          exact ih.trans hmono

lemma mul_div_hundred_le (dist s : Nat) (h : s ≤ 100) : dist * s / 100 ≤ dist := by
  have h1 : dist * s ≤ dist * 100 := Nat.mul_le_mul_left dist h
  have h2 : dist * s / 100 ≤ dist * 100 / 100 := Nat.div_le_div_right h1
  have h3 : dist * 100 / 100 = dist := by omega
  rwa [h3] at h2

lemma exists_remainder (s fee tot : Nat) (h1 : s ≤ tot - fee) (h2 : fee ≤ tot) :
    ∃ rem, s + fee + rem = tot :=
  ⟨tot - (s + fee), by omega⟩

/-- C2 (counterexample): with recipients whose shares are each within
[0,100] but sum to 200 (the claim lets them "not sum to 100"),
`distributeRevenue` records distributions summing to 120 against an entry
whose distributable is only 60 — the claimed invariant
`sum(recorded) ≤ distributable` fails on the code as soon as the shares
sum above 100. -/
theorem distributions_can_exceed_distributable :
    (∀ p ∈ [({ name := "A", address := "STA", sharePercent := 100 } : Provider),
            { name := "B", address := "STB", sharePercent := 100 }],
      p.sharePercent ≤ 100) ∧
    distributableOf 40 100 = 60 ∧
    sumAmounts (distributionsFor
        (distributeRevenue 40 sendAlwaysOk
          (recordIncomingPayment [] "txC" "ST1" 100 "wallet-auditor").1 1 100
          [{ name := "A", address := "STA", sharePercent := 100 },
           { name := "B", address := "STB", sharePercent := 100 }]).1 1) = 120 ∧
    ¬ sumAmounts (distributionsFor
        (distributeRevenue 40 sendAlwaysOk
          (recordIncomingPayment [] "txC" "ST1" 100 "wallet-auditor").1 1 100
          [{ name := "A", address := "STA", sharePercent := 100 },
           { name := "B", address := "STB", sharePercent := 100 }]).1 1) ≤
      distributableOf 40 100 :=
  ⟨by decide, by decide, by decide, by decide⟩

/-- C2 (amended): provided the recipients' `sharePercent`s sum to at most
100 (each therefore within [0,100]), the distributions `distributeRevenue`
records for a fresh entry sum to at most `distributable`, which is at most
`totalAmount`; equivalently `sum(recorded) + fee + rem = totalAmount` for
some remainder `rem ≥ 0`.  Without the sum bound the invariant fails (see
the counterexample). -/
theorem distributeRevenue_conservation (feePercent totalAmount eid : Nat)
    (send : SendOracle) (entries : List LedgerEntry) (providers : List Provider)
    (hfp : feePercent ≤ 100)
    (hsum : (providers.map Provider.sharePercent).sum ≤ 100)
    (hone : (entries.filter (fun e => e.id == eid)).length = 1)
    (hfresh : distributionsFor entries eid = []) :
    sumAmounts (distributionsFor
        (distributeRevenue feePercent send entries eid totalAmount providers).1 eid) ≤
      distributableOf feePercent totalAmount ∧
    distributableOf feePercent totalAmount ≤ totalAmount ∧
    ∃ rem,
      sumAmounts (distributionsFor
          (distributeRevenue feePercent send entries eid totalAmount providers).1 eid) +
        platformFeeOf feePercent totalAmount + rem = totalAmount := by
  have hd : distributionsFor
      (distributeRevenue feePercent send entries eid totalAmount providers).1 eid =
      distributionsFor entries eid ++
        providers.filterMap (fun p =>
          if p.address = "" then none
          else if shareOf (distributableOf feePercent totalAmount) p.sharePercent = 0 then none
          else
            match send p.address (shareOf (distributableOf feePercent totalAmount) p.sharePercent) with
            | .ok txid => some { txid := txid, toAddress := p.address, toName := p.name,
                                 amount := shareOf (distributableOf feePercent totalAmount) p.sharePercent }
            | .error _ => none) :=
    distributeLoop_entries send eid (distributableOf feePercent totalAmount)
      providers entries hone
  have hshares : sumAmounts (providers.filterMap (fun p =>
      if p.address = "" then none
      else if shareOf (distributableOf feePercent totalAmount) p.sharePercent = 0 then none
      else
        match send p.address (shareOf (distributableOf feePercent totalAmount) p.sharePercent) with
        | .ok txid => some { txid := txid, toAddress := p.address, toName := p.name,
                             amount := shareOf (distributableOf feePercent totalAmount) p.sharePercent }
        | .error _ => none)) ≤ distributableOf feePercent totalAmount :=
    (sumAmounts_shares_le send (distributableOf feePercent totalAmount) providers).trans
      (mul_div_hundred_le _ _ hsum)
  have hfee : platformFeeOf feePercent totalAmount ≤ totalAmount :=
    mul_div_hundred_le totalAmount feePercent hfp
  rw [hd, hfresh, List.nil_append]
  exact ⟨hshares, Nat.sub_le _ _, exists_remainder _ _ _ hshares hfee⟩

theorem distributeRevenue_conservation_witness :
    sumAmounts (distributionsFor
        (distributeRevenue 40 sendAlwaysOk
          (recordIncomingPayment [] "tx1" "ST1" 5000 "audit").1 1 5000
          [{ name := "Provider A", address := "STA", sharePercent := 50 },
           { name := "Provider B", address := "STB", sharePercent := 50 }]).1 1) ≤
      distributableOf 40 5000 :=
  (distributeRevenue_conservation 40 5000 1 sendAlwaysOk
      (recordIncomingPayment [] "tx1" "ST1" 5000 "audit").1
      [{ name := "Provider A", address := "STA", sharePercent := 50 },
       { name := "Provider B", address := "STB", sharePercent := 50 }]
      (by decide) (by decide) (by decide) (by decide)).1

end MoltMarket
